import Mathlib

/-!
Verification of the alt-text generation tool for book repositories.

This file gives a shallow embedding of the repository's core logic:

* `replace_alt_text_in_chapter_content` (src/process_repo_files.py, lines
  323-343): the replacement engine, built on Python `str.replace` semantics
  (modelled by `pyReplace`, which substitutes every non-overlapping
  occurrence, scanning left to right, and which for an empty pattern inserts
  the replacement before every character and at the end).
* `collect_image_data_from_chapter_file` (same file, lines 123-253): the per-
  element loop of the image locator.  The calls into external libraries
  (BeautifulSoup tree parsing, the `re` module scan, `urlparse`, and the
  filesystem) are not repository code; their results enter the embedding as
  inputs: the parsed `ImgElem` records, the `(src, literal tag)` match list,
  and the `isLocalRel` / `fileExists` oracles.
* `resolve_image_path` / path helpers (lines 269-320).
* `merge_review_data_with_repo_data` and `read_review_data_from_csv_file`
  (src/main.py, lines 54-110).

Python strings are modelled as `List Char`.  Python runtime exceptions
(`AttributeError` from attribute access on `None`, `TypeError` from
`str.replace` with a `None` argument) are modelled with `Except PyErr`.
-/

abbrev Str := List Char

/-- Python `s.replace(old, new)` for `old = ""`: the replacement is inserted
before every character and once at the end (`"ab".replace("", "X") = "XaXbX"`). -/
def pyReplaceEmpty (new : Str) : Str → Str
  | [] => new
  | c :: rest => new ++ c :: pyReplaceEmpty new rest

/-- Scanner for Python `s.replace(old, new)` with nonempty `old`: walk the
string left to right; on a match emit `new` and consume the match (`skip`
counts match characters still to consume); otherwise emit the character. -/
def replaceGo (old new : Str) : Str → Nat → Str
  | [], _ => []
  | _ :: rest, skip + 1 => replaceGo old new rest skip
  | c :: rest, 0 =>
    if old.isPrefixOf (c :: rest) then
      new ++ replaceGo old new rest (old.length - 1)
    else
      c :: replaceGo old new rest 0

/-- Python `s.replace(old, new)`: every non-overlapping occurrence of `old`
is substituted, scanning left to right. -/
def pyReplace (old new s : Str) : Str :=
  if old.isEmpty then pyReplaceEmpty new s else replaceGo old new s 0

/-- All positions at which `pat` occurs in `s` (including the position past
the end, which carries an occurrence only for the empty pattern). -/
def occPositions (pat s : Str) : List Nat :=
  (List.range (s.length + 1)).filter (fun i => pat.isPrefixOf (List.drop i s))

/-- Python `pat in s` substring test. -/
def containsSub (pat s : Str) : Bool :=
  !(occPositions pat s).isEmpty

/-- Python runtime exceptions raised by the embedded code. -/
inductive PyErr where
  | attributeError
  | typeError
deriving DecidableEq

/-- The Image record (src/chapters_and_images.py / the pydantic revision used
by the tests): `original_img_elem_str` and `generated_alt_text` may be `None`
(`generated_alt_text` defaults to `None` until generation or a merge fills it
in; the locator stores `None` for the fragment when no literal match exists). -/
structure PyImage where
  chapter_filepath : Str
  original_img_elem_str : Option Str
  image_src : Str
  image_filepath : Str
  preceding_para_text : Str
  succeeding_para_text : Str
  caption_text : Str
  original_alt_text : Str
  generated_alt_text : Option Str
  alt_text_replaced : Bool
deriving DecidableEq

/-- The Chapter record (src/chapters_and_images.py). -/
structure PyChapter where
  filepath : Str
  content : Str
  chapter_format : Str
  images : List PyImage
deriving DecidableEq

/-- Line 338 of src/process_repo_files.py:
`image.original_img_elem_str.replace(image.original_alt_text, image.generated_alt_text)` —
the replacement fragment is the literal tag with the original alt text
substituted (every occurrence, by Python `str.replace`) by the generated text. -/
def buildReplacementString (o oa ga : Str) : Str :=
  pyReplace oa ga o

/-- Body of the loop of `replace_alt_text_in_chapter_content` (lines 335-341)
for one image.  Replacement is attempted iff
`replace_existing_alt or not image.original_alt_text`.  When attempted,
`image.original_img_elem_str.replace(...)` raises `AttributeError` if the
fragment is `None`, and `str.replace` raises `TypeError` if
`image.generated_alt_text` is `None`; otherwise the chapter content gets the
fragment substituted (every occurrence) and `alt_text_replaced` is set. -/
def replaceStep (replace_existing_alt : Bool) (content : Str) (img : PyImage) :
    Except PyErr (Str × PyImage) :=
  if replace_existing_alt || img.original_alt_text.isEmpty then
    match img.original_img_elem_str with
    | none => .error .attributeError
    | some o =>
      match img.generated_alt_text with
      | none => .error .typeError
      | some ga =>
        .ok (pyReplace o (buildReplacementString o img.original_alt_text ga) content,
             { img with alt_text_replaced := true })
  else
    .ok (content, img)

/-- The `for image in images` loop of `replace_alt_text_in_chapter_content`:
threads the updated content through the images, collecting the updated image
records (Python mutates them in place). -/
def replaceLoop (replace_existing_alt : Bool) : Str → List PyImage →
    Except PyErr (Str × List PyImage)
  | content, [] => .ok (content, [])
  | content, img :: rest =>
    match replaceStep replace_existing_alt content img with
    | .error e => .error e
    | .ok (c', img') =>
      match replaceLoop replace_existing_alt c' rest with
      | .error e => .error e
      | .ok (c'', rest') => .ok (c'', img' :: rest')

/-- `replace_alt_text_in_chapter_content` (src/process_repo_files.py,
lines 323-343). -/
def replace_alt_text_in_chapter_content (chapter_content : Str)
    (images : List PyImage) (replace_existing_alt : Bool) :
    Except PyErr (Str × List PyImage) :=
  replaceLoop replace_existing_alt chapter_content images

/-- One `<img>` element as produced by the BeautifulSoup parse of the chapter
(lines 149, 172-236 of src/process_repo_files.py).  `src` and `alt` model
`img_elem.get('src')` / `img_elem.get('alt')` (absent attribute = `none`).
The three context fields carry the text of the nodes that the tree navigation
of lines 213-231 selects (preceding paragraph, succeeding paragraph, caption
node); that navigation runs inside the external parse tree, so its results
are inputs to the embedding, and the repository code applies `.get_text()`
plus `.strip()` to them (modelled by `pyStrip` below). -/
structure ImgElem where
  src : Option Str
  alt : Option Str
  precedingPara : Option Str
  succeedingPara : Option Str
  captionTag : Option Str
deriving DecidableEq

/-- Python `str.strip()` whitespace test (ASCII whitespace). -/
def isPySpace (c : Char) : Bool :=
  c = ' ' || c = '\t' || c = '\n' || c = '\r' || c = '\x0b' || c = '\x0c'

/-- Python `str.strip()`. -/
def pyStrip (s : Str) : Str :=
  ((s.dropWhile isPySpace).reverse.dropWhile isPySpace).reverse

/-- `pathlib.Path.name`: the component after the last slash. -/
def lastComponent (p : Str) : Str :=
  p.foldl (fun acc c => if c = '/' then [] else acc ++ [c]) []

/-- `pathlib.Path.suffix` of a file name: from the last dot, provided that
dot is neither the first nor the last character (`pathlib` returns the empty
string otherwise). -/
def pathSuffix (name : Str) : Str :=
  match ((List.range name.length).filter
      (fun i => name.getD i ' ' == '.' && decide (0 < i) && decide (i + 1 < name.length))).getLast? with
  | some i => name.drop i
  | none => []

/-- `str.lower()` (ASCII). -/
def lowerStr (s : Str) : Str :=
  s.map Char.toLower

/-- Line 145 of src/process_repo_files.py: the filetypes accepted by the
generation service. -/
def supported_filetypes : List Str :=
  ["png".data, "jpeg".data, "jpg".data, "webp".data, "gif".data]

/-- `resolve_image_path` (src/process_repo_files.py, lines 278-283): only a
local relative reference is joined onto the project directory, and only an
existing candidate is returned; otherwise the result is `None`.
`is_local_relative_path` (built on `urllib.parse.urlparse`) and the
filesystem are external, so they enter as the oracles `isLocalRel` and
`fileExists`; `.resolve()` canonicalisation is the identity here. -/
def resolve_image_path (isLocalRel fileExists : Str → Bool)
    (project_dir src : Str) : Option Str :=
  if isLocalRel src then
    let candidate := project_dir ++ '/' :: src
    if fileExists candidate then some candidate else none
  else
    none

/-- Lines 153-168: `original_img_tags_by_src.setdefault(src, []).append(tag)` —
an insertion-ordered map from reference string to the list of literal tag
strings that mention it, in order of appearance. -/
def addTag (m : List (Str × List Str)) (src tag : Str) : List (Str × List Str) :=
  match m with
  | [] => [(src, [tag])]
  | (k, ts) :: rest =>
    if k = src then (k, ts ++ [tag]) :: rest else (k, ts) :: addTag rest src tag

/-- Build the literal-tag map from the `(src, literal tag)` pairs that the
regex scan of line 151 produced (the per-match `src` extraction of lines
155-168 is the external parse; its results are the input pairs). -/
def buildTagsBySrc (ms : List (Str × Str)) : List (Str × List Str) :=
  ms.foldl (fun m p => addTag m p.1 p.2) []

/-- Map lookup, `original_img_tags_by_src.get(img_src)`. -/
def lookupTags (m : List (Str × List Str)) (src : Str) : Option (List Str) :=
  match m with
  | [] => none
  | (k, ts) :: rest => if k = src then some ts else lookupTags rest src

/-- Line 208: `(original_img_tags_by_src.get(img_src) or [None])[0]` — the
first literal tag recorded for this reference, or `None` when the map has no
(nonempty) entry.  The list is indexed at `[0]` unconditionally; entries are
never consumed. -/
def firstTag (m : List (Str × List Str)) (src : Str) : Option Str :=
  match lookupTags m src with
  | some (t :: _) => some t
  | _ => none

/-- The reserved path segment of line 181. -/
def calloutsSeg : Str := "callouts/".data

/-- The body of the `for img_elem in img_elements` loop of
`collect_image_data_from_chapter_file` (lines 172-251), for one element.
`.ok none` models `continue`; `.error .attributeError` models the
`AttributeError` that line 186 (`if not img_filepath.exists:`) raises when
`resolve_image_path` returned `None` (attribute access on `None`; for a real
path the un-called bound method `.exists` is truthy, so the guard never
skips).  Filter order follows the source: missing/empty `src`, the
`callouts/` segment, resolution, the filename allowlist, the supported
suffix, the existing-alt skip (lines 203-205 and its duplicate 210-211),
the literal-tag lookup, the context text extraction, and the second
resolution-and-existence check of lines 238-240. -/
def processElem (isLocalRel fileExists : Str → Bool)
    (tagsBySrc : List (Str × List Str)) (chapter_filepath project_dir : Str)
    (skip_existing_alt_text : Bool) (img_filename_filter_list : Option (List Str))
    (elem : ImgElem) : Except PyErr (Option PyImage) :=
  match elem.src with
  | none => .ok none
  | some img_src =>
    if img_src.isEmpty then .ok none
    else if containsSub calloutsSeg img_src then .ok none
    else
      match resolve_image_path isLocalRel fileExists project_dir img_src with
      | none => .error .attributeError
      | some img_filepath =>
        if (match img_filename_filter_list with
            | some l => !(l.contains (lastComponent img_filepath))
            | none => false) then .ok none
        else if !(supported_filetypes.contains
            (lowerStr ((pathSuffix (lastComponent img_filepath)).drop 1))) then .ok none
        else
          let img_alt_text := elem.alt.getD []
          if skip_existing_alt_text && !(pyStrip img_alt_text).isEmpty then .ok none
          else
            let original_img_tag := firstTag tagsBySrc img_src
            if skip_existing_alt_text && !(pyStrip img_alt_text).isEmpty then .ok none
            else
              let preceding_text := pyStrip (elem.precedingPara.getD [])
              let succeeding_text := pyStrip (elem.succeedingPara.getD [])
              let caption_text := pyStrip (elem.captionTag.getD [])
              match resolve_image_path isLocalRel fileExists project_dir img_src with
              | none => .error .attributeError
              | some p2 =>
                if !(fileExists p2) then .ok none
                else .ok (some {
                  chapter_filepath := chapter_filepath
                  original_img_elem_str := original_img_tag
                  image_src := img_src
                  image_filepath := p2
                  preceding_para_text := preceding_text
                  succeeding_para_text := succeeding_text
                  caption_text := caption_text
                  original_alt_text := img_alt_text
                  generated_alt_text := none
                  alt_text_replaced := false })

/-- The element loop of `collect_image_data_from_chapter_file`, accumulating
the surviving images in document order; a raised exception aborts the call. -/
def collectGo (isLocalRel fileExists : Str → Bool)
    (tagsBySrc : List (Str × List Str)) (chapter_filepath project_dir : Str)
    (skip_existing_alt_text : Bool) (img_filename_filter_list : Option (List Str)) :
    List ImgElem → Except PyErr (List PyImage)
  | [] => .ok []
  | e :: rest =>
    match processElem isLocalRel fileExists tagsBySrc chapter_filepath project_dir
        skip_existing_alt_text img_filename_filter_list e with
    | .error err => .error err
    | .ok none => collectGo isLocalRel fileExists tagsBySrc chapter_filepath
        project_dir skip_existing_alt_text img_filename_filter_list rest
    | .ok (some img) =>
      match collectGo isLocalRel fileExists tagsBySrc chapter_filepath
          project_dir skip_existing_alt_text img_filename_filter_list rest with
      | .error err => .error err
      | .ok imgs => .ok (img :: imgs)

/-- `collect_image_data_from_chapter_file` (src/process_repo_files.py, lines
123-253), over the outputs of the external parses: the parsed `img_elements`
and the `(src, literal tag)` regex matches. -/
def collect_image_data_from_chapter_file (img_elements : List ImgElem)
    (img_tag_matches : List (Str × Str)) (isLocalRel fileExists : Str → Bool)
    (chapter_filepath project_dir : Str) (skip_existing_alt_text : Bool)
    (img_filename_filter_list : Option (List Str)) : Except PyErr (List PyImage) :=
  collectGo isLocalRel fileExists (buildTagsBySrc img_tag_matches)
    chapter_filepath project_dir skip_existing_alt_text img_filename_filter_list
    img_elements

/-- Python dict built from a pair list (`{k: v for k, v in pairs}`) and read
with `.get(key, None)`: the last pair for a key wins. -/
def pyDictGet (pairs : List (Str × Str)) (k : Str) : Option Str :=
  pairs.foldl (fun acc p => if p.1 = k then some p.2 else acc) none

/-- Body of the inner loop of `merge_review_data_with_repo_data`
(src/main.py, lines 107-110): the image's generated text is overwritten only
when `img_src_alt_text_map.get(image.image_src, None)` is truthy, i.e. the
key is present with a nonempty corrected text. -/
def mergeImage (pairs : List (Str × Str)) (img : PyImage) : PyImage :=
  match pyDictGet pairs img.image_src with
  | some v => if v.isEmpty then img else { img with generated_alt_text := some v }
  | none => img

/-- `merge_review_data_with_repo_data` (src/main.py, lines 95-110). -/
def merge_review_data_with_repo_data (pairs : List (Str × Str))
    (all_chapters : List PyChapter) : List PyChapter :=
  all_chapters.map (fun ch => { ch with images := ch.images.map (mergeImage pairs) })

/-- One output character of `html.escape(s, quote=True)` (used on line 85 of
src/main.py).  `html.escape` applies `str.replace` for `&`, `<`, `>`, `"`,
`'` in that order; since `&` is rewritten first and no later pass produces a
character of an earlier pass, the result equals this character-wise map. -/
def escChar (c : Char) : Str :=
  if c = '&' then "&amp;".data
  else if c = '<' then "&lt;".data
  else if c = '>' then "&gt;".data
  else if c = '"' then "&quot;".data
  else if c = '\x27' then "&#x27;".data
  else [c]

/-- `html.escape(s, quote=True)`. -/
def html_escape (s : Str) : Str :=
  s.foldr (fun c acc => escChar c ++ acc) []

/-- States of the CPython `csv` reader field machine (default dialect:
delimiter `,`, quotechar `"`, doublequote on, no escapechar, non-strict). -/
inductive CsvState where
  | startField
  | inField
  | inQuoted
  | quoteInQuoted
deriving DecidableEq

/-- The CPython `csv.reader` field machine on one line (line terminators
already stripped; the embedding is used on lines free of CR/LF, matching the
`raw_line = line.rstrip('\n')` input of src/main.py line 66).  `cur` holds
the current field reversed; `acc` the finished fields. -/
def csvSplitGo : CsvState → Str → Str → List Str → List Str
  | _, [], cur, acc => acc ++ [cur.reverse]
  | .startField, c :: rest, cur, acc =>
    if c = '"' then csvSplitGo .inQuoted rest cur acc
    else if c = ',' then csvSplitGo .startField rest [] (acc ++ [cur.reverse])
    else csvSplitGo .inField rest (c :: cur) acc
  | .inField, c :: rest, cur, acc =>
    if c = ',' then csvSplitGo .startField rest [] (acc ++ [cur.reverse])
    else csvSplitGo .inField rest (c :: cur) acc
  | .inQuoted, c :: rest, cur, acc =>
    if c = '"' then csvSplitGo .quoteInQuoted rest cur acc
    else csvSplitGo .inQuoted rest (c :: cur) acc
  | .quoteInQuoted, c :: rest, cur, acc =>
    if c = '"' then csvSplitGo .inQuoted rest (c :: cur) acc
    else if c = ',' then csvSplitGo .startField rest [] (acc ++ [cur.reverse])
    else csvSplitGo .inField rest (c :: cur) acc

/-- `next(csv.reader([raw_line]))` for a nonempty line (src/main.py line 80);
an empty line yields no row, which the caller turns into an error. -/
def csvSplitLine (line : Str) : List Str :=
  csvSplitGo .startField line [] []

/-- The lookbehind `(?<=^|,[ ]*)` of the quoted-field pattern on line 70 of
src/main.py, checked against the reversed text before the opening quote:
start of line, or a comma followed only by spaces. -/
def lookbehindOKRev (preRev : Str) : Bool :=
  preRev.isEmpty || ((preRev.dropWhile (fun c => c = ' ')).head? == some ',')

/-- The lookahead `(?=$|,[ ]*|\n|\r)` after the closing quote: end of line,
or a comma (the `[ ]*` needs nothing), or a line-terminator character. -/
def lookaheadOK (after : Str) : Bool :=
  after.isEmpty || (after.head? == some ',') || (after.head? == some '\n')
    || (after.head? == some '\r')

/-- The lazy body `(.*?)"` of the quoted-field pattern: find the nearest
closing quote whose lookahead holds; earlier quotes that fail the lookahead
are absorbed into the field content (regex backtracking). -/
def tryCloseQuote : Str → Str → Option (Str × Str)
  | [], _ => none
  | c :: rest, acc =>
    if c = '"' && lookaheadOK rest then some (acc.reverse, rest)
    else tryCloseQuote rest (c :: acc)

/-- `regex.findall(quoted_field_pattern, raw_line)` (src/main.py lines
70-71): left-to-right scan; at a quote whose lookbehind holds, match the
shortest quoted field whose closing lookahead holds, record the group, and
continue after it.  Fuelled by the line length (each step consumes at least
one character). -/
def findQFGo : Nat → Str → Str → List Str
  | 0, _, _ => []
  | _ + 1, _, [] => []
  | fuel + 1, preRev, c :: rest =>
    if c = '"' && lookbehindOKRev preRev then
      match tryCloseQuote rest [] with
      | some (content, rest') =>
        content :: findQFGo fuel ('"' :: content.reverse ++ '"' :: preRev) rest'
      | none => findQFGo fuel (c :: preRev) rest
    else findQFGo fuel (c :: preRev) rest

/-- The quoted fields of one line, per the pattern of src/main.py line 70. -/
def findQuotedFields (line : Str) : List Str :=
  findQFGo (line.length + 1) [] line

/-- The unescaped-quote pattern `(?<!")"(?!")` of src/main.py line 74: a
quote character with no quote immediately before or after it. -/
def hasUnescapedQuote (field : Str) : Bool :=
  (List.range field.length).any (fun i =>
    field.getD i ' ' == '"'
      && (i == 0 || !(field.getD (i - 1) ' ' == '"'))
      && (i + 1 == field.length || !(field.getD (i + 1) ' ' == '"')))

/-- The `try` body of the per-line loop of `read_review_data_from_csv_file`
(src/main.py lines 68-86): `none` models a raised-and-caught exception
(a quoted field with an unescaped internal quote; `StopIteration` from an
empty line, which yields no CSV row; or a row without exactly two fields),
`some` the appended `(img_path, html-escaped alt_text)` pair. -/
def processLine (line : Str) : Option (Str × Str) :=
  if (findQuotedFields line).any hasUnescapedQuote then none
  else if line.isEmpty then none
  else
    match csvSplitLine line with
    | [a, b] => some (pyStrip a, html_escape (pyStrip b))
    | _ => none

/-- The line loop of `read_review_data_from_csv_file`: first component the
successfully parsed pairs, second the offending lines, both in file order. -/
def readReviewGo : List Str → List (Str × Str) × List Str
  | [] => ([], [])
  | l :: rest =>
    let pr := readReviewGo rest
    match processLine l with
    | some p => (p :: pr.1, pr.2)
    | none => (pr.1, l :: pr.2)

/-- `read_review_data_from_csv_file` (src/main.py, lines 54-93): every
malformed line is collected; after the loop a single error reporting all of
them is raised iff any line failed (the error payload here is the list of
offending lines, standing for the aggregated message of lines 89-91). -/
def read_review_data_from_csv_file (lines : List Str) :
    Except (List Str) (List (Str × Str)) :=
  let pr := readReviewGo lines
  if pr.2.isEmpty then .ok pr.1 else .error pr.2


/-- A fully populated Image record for concrete scenarios (field values as the
locator produces them; `src`, fragment, original alt text and generated text
vary per scenario). -/
def mkTestImage (src : Str) (o : Option Str) (oa : Str) (ga : Option Str) : PyImage :=
  { chapter_filepath := "chapter1.html".data
    original_img_elem_str := o
    image_src := src
    image_filepath := "proj/images/a.png".data
    preceding_para_text := []
    succeeding_para_text := []
    caption_text := []
    original_alt_text := oa
    generated_alt_text := ga
    alt_text_replaced := false }

/-- A parsed image element referencing `a.png` with an empty alt attribute. -/
def elemA : ImgElem :=
  { src := some "a.png".data
    alt := some []
    precedingPara := none
    succeedingPara := none
    captionTag := none }

/-- First literal occurrence of the `a.png` reference in a chapter. -/
def tagT1 : Str := "<img src=\"a.png\">".data

/-- Second, byte-distinct literal occurrence of the same reference (extra
space). -/
def tagT2 : Str := "<img  src=\"a.png\">".data

/-- The regex-scan result for a chapter that mentions `a.png` twice. -/
def c3Matches : List (Str × Str) :=
  [("a.png".data, tagT1), ("a.png".data, tagT2)]

/-- The Image record the locator produces for each of the two `a.png`
elements of the duplicate-reference chapter. -/
def c3OutImg : PyImage :=
  { chapter_filepath := "ch1.html".data
    original_img_elem_str := some tagT1
    image_src := "a.png".data
    image_filepath := "proj/a.png".data
    preceding_para_text := []
    succeeding_para_text := []
    caption_text := []
    original_alt_text := []
    generated_alt_text := none
    alt_text_replaced := false }

theorem isPrefixOf_append_self : ∀ (o t : Str), o.isPrefixOf (o ++ t) = true := by
  intro o t
  induction o with
  | nil => cases t <;> rfl
  | cons c o ih => simp [List.isPrefixOf, ih]

theorem isPrefixOf_nil_of_ne {o : Str} (h : o ≠ []) : o.isPrefixOf ([] : Str) = false := by
  cases o with
  | nil => exact absurd rfl h
  | cons c o => rfl

theorem drop_len_append : ∀ (a t : Str) (n : Nat),
    List.drop (a.length + n) (a ++ t) = List.drop n t := by
  intro a
  induction a with
  | nil => intro t n; simp
  | cons c a ih =>
    intro t n
    have harith : (c :: a).length + n = (a.length + n) + 1 := by
      simp [List.length_cons]; omega
    rw [harith, List.cons_append, List.drop_succ_cons]
    exact ih t n

theorem replaceGo_cons_zero (old new : Str) (c : Char) (rest : Str) :
    replaceGo old new (c :: rest) 0 =
      if old.isPrefixOf (c :: rest) then new ++ replaceGo old new rest (old.length - 1)
      else c :: replaceGo old new rest 0 :=
  rfl

theorem replaceGo_skip (old new : Str) : ∀ (a t : Str),
    replaceGo old new (a ++ t) a.length = replaceGo old new t 0 := by
  intro a
  induction a with
  | nil => intro t; rfl
  | cons c a ih =>
    intro t
    rw [List.cons_append, List.length_cons]
    exact ih t

theorem replaceGo_no_occ (old new : Str) : ∀ (s : Str),
    (∀ i, old.isPrefixOf (List.drop i s) = false) → replaceGo old new s 0 = s := by
  intro s
  induction s with
  | nil => intro _; rfl
  | cons c t ih =>
    intro h
    have h0 : old.isPrefixOf (c :: t) = false := by simpa using h 0
    rw [replaceGo_cons_zero, if_neg (by simp [h0])]
    have := ih (fun i => by simpa [List.drop_succ_cons] using h (i + 1))
    rw [this]

theorem replaceGo_single (old new : Str) (hne : old ≠ []) :
    ∀ (pre post : Str),
    (∀ i, old.isPrefixOf (List.drop i (pre ++ old ++ post)) = true → i = pre.length) →
    replaceGo old new (pre ++ old ++ post) 0 = pre ++ new ++ post := by
  intro pre
  induction pre with
  | nil =>
    intro post h
    simp only [List.nil_append] at h ⊢
    obtain ⟨c, ot, rfl⟩ := List.exists_cons_of_ne_nil hne
    have hpfx : (c :: ot).isPrefixOf (c :: (ot ++ post)) = true := by
      have := isPrefixOf_append_self (c :: ot) post
      rwa [List.cons_append] at this
    rw [List.cons_append, replaceGo_cons_zero, if_pos hpfx]
    have hlen : (c :: ot).length - 1 = ot.length := by simp
    rw [hlen, replaceGo_skip]
    congr 1
    apply replaceGo_no_occ
    intro j
    cases hb : (c :: ot).isPrefixOf (List.drop j post) with
    | false => rfl
    | true =>
      exfalso
      have hj : (c :: ot).length + j = 0 := by
        apply h
        rw [drop_len_append]
        exact hb
      simp [List.length_cons] at hj
  | cons c pre' ih =>
    intro post h
    have hs : (c :: pre') ++ old ++ post = c :: (pre' ++ old ++ post) := by
      simp [List.cons_append]
    rw [hs] at h
    have h0 : old.isPrefixOf (c :: (pre' ++ old ++ post)) = false := by
      cases hb : old.isPrefixOf (c :: (pre' ++ old ++ post)) with
      | false => rfl
      | true =>
        exfalso
        have := h 0 (by simpa using hb)
        simp [List.length_cons] at this
    rw [hs, replaceGo_cons_zero, if_neg (by simp only [h0]; exact Bool.false_ne_true)]
    have htl : replaceGo old new (pre' ++ old ++ post) 0 = pre' ++ new ++ post := by
      apply ih
      intro i hi
      have := h (i + 1) (by simpa [List.drop_succ_cons] using hi)
      simp only [List.length_cons] at this
      omega
    rw [htl]
    simp [List.cons_append]

theorem replaceGo_double (old new : Str) (hne : old ≠ []) :
    ∀ (pre mid post : Str),
    (∀ i, old.isPrefixOf (List.drop i (pre ++ old ++ mid ++ old ++ post)) = true →
      i = pre.length ∨ i = pre.length + old.length + mid.length) →
    replaceGo old new (pre ++ old ++ mid ++ old ++ post) 0 =
      pre ++ new ++ mid ++ new ++ post := by
  intro pre
  induction pre with
  | nil =>
    intro mid post h
    simp only [List.nil_append, List.length_nil] at h ⊢
    have hassoc : old ++ mid ++ old ++ post = old ++ (mid ++ old ++ post) := by
      simp [List.append_assoc]
    rw [hassoc] at h ⊢
    obtain ⟨c, ot, rfl⟩ := List.exists_cons_of_ne_nil hne
    have hpfx : (c :: ot).isPrefixOf (c :: (ot ++ (mid ++ (c :: ot) ++ post))) = true := by
      have := isPrefixOf_append_self (c :: ot) (mid ++ (c :: ot) ++ post)
      rwa [List.cons_append] at this
    rw [List.cons_append, replaceGo_cons_zero, if_pos hpfx]
    have hlen : (c :: ot).length - 1 = ot.length := by simp
    rw [hlen, replaceGo_skip]
    have hmid : replaceGo (c :: ot) new (mid ++ (c :: ot) ++ post) 0 =
        mid ++ new ++ post := by
      apply replaceGo_single (c :: ot) new hne mid post
      intro i hi
      have hor : (c :: ot).length + i = 0 ∨
          (c :: ot).length + i = 0 + (c :: ot).length + mid.length := by
        apply h
        rw [drop_len_append]
        exact hi
      rcases hor with hor | hor
      · simp [List.length_cons] at hor
      · simp only [List.length_cons] at hor ⊢
        omega
    rw [hmid]
    simp [List.append_assoc]
  | cons c pre' ih =>
    intro mid post h
    have hs : (c :: pre') ++ old ++ mid ++ old ++ post =
        c :: (pre' ++ old ++ mid ++ old ++ post) := by
      simp [List.cons_append]
    rw [hs] at h
    have h0 : old.isPrefixOf (c :: (pre' ++ old ++ mid ++ old ++ post)) = false := by
      cases hb : old.isPrefixOf (c :: (pre' ++ old ++ mid ++ old ++ post)) with
      | false => rfl
      | true =>
        exfalso
        rcases h 0 (by simpa using hb) with h' | h' <;>
          (simp only [List.length_cons] at h'; omega)
    rw [hs, replaceGo_cons_zero, if_neg (by simp only [h0]; exact Bool.false_ne_true)]
    have htl : replaceGo old new (pre' ++ old ++ mid ++ old ++ post) 0 =
        pre' ++ new ++ mid ++ new ++ post := by
      apply ih
      intro i hi
      rcases h (i + 1) (by simpa [List.drop_succ_cons] using hi) with h' | h' <;>
        simp only [List.length_cons] at h' <;> omega
    rw [htl]
    simp [List.cons_append]

theorem occPositions_mem {pat s : Str} {i : Nat} :
    i ∈ occPositions pat s ↔ i < s.length + 1 ∧ pat.isPrefixOf (List.drop i s) = true := by
  simp [occPositions, List.mem_filter, List.mem_range]

theorem occPositions_ne_nil_of_nil_pat (s : Str) : occPositions [] s ≠ [] := by
  intro h
  have h0 : (0 : Nat) ∈ occPositions [] s := by
    apply occPositions_mem.mpr
    refine ⟨Nat.succ_pos _, ?_⟩
    cases s <;> rfl
  rw [h] at h0
  exact List.not_mem_nil 0 h0

theorem pat_ne_nil_of_occPositions {pat s : Str} {L : List Nat}
    (hL : occPositions pat s = L) (hlen : L.length < s.length + 1) : pat ≠ [] := by
  rintro rfl
  have : occPositions ([] : Str) s = (List.range (s.length + 1)).filter (fun _ => true) := by
    unfold occPositions
    congr 1
    funext i
    cases List.drop i s <;> rfl
  rw [List.filter_true, hL] at this
  have := congrArg List.length this
  simp [List.length_range] at this
  omega

theorem mem_of_occ {pat s : Str} {L : List Nat} (hne : pat ≠ [])
    (hL : occPositions pat s = L) {i : Nat}
    (hb : pat.isPrefixOf (List.drop i s) = true) : i ∈ L := by
  by_cases hi : i < s.length + 1
  · rw [← hL]
    exact occPositions_mem.mpr ⟨hi, hb⟩
  · exfalso
    have hdrop : List.drop i s = [] := List.drop_eq_nil_of_le (by omega)
    rw [hdrop, isPrefixOf_nil_of_ne hne] at hb
    exact Bool.false_ne_true hb

theorem all_not_occ_of_occPositions_nil {pat s : Str}
    (h : occPositions pat s = []) :
    ∀ i, pat.isPrefixOf (List.drop i s) = false := by
  have hne : pat ≠ [] := by
    rintro rfl
    exact occPositions_ne_nil_of_nil_pat s h
  intro i
  cases hb : pat.isPrefixOf (List.drop i s) with
  | false => rfl
  | true => exact absurd (mem_of_occ hne h hb) (List.not_mem_nil i)

theorem isEmpty_false_of_ne_nil {l : Str} (h : l ≠ []) : l.isEmpty = false := by
  cases l with
  | nil => exact absurd rfl h
  | cons c t => rfl

theorem pyReplace_no_occ {old : Str} (new : Str) {s : Str}
    (h : occPositions old s = []) : pyReplace old new s = s := by
  have hne : old ≠ [] := by
    rintro rfl
    exact occPositions_ne_nil_of_nil_pat s h
  rw [pyReplace, isEmpty_false_of_ne_nil hne]
  simp only [Bool.false_eq_true, if_false]
  exact replaceGo_no_occ old new s (all_not_occ_of_occPositions_nil h)

theorem pyReplace_single (old new pre post : Str) (hne : old ≠ [])
    (hocc : occPositions old (pre ++ old ++ post) = [pre.length]) :
    pyReplace old new (pre ++ old ++ post) = pre ++ new ++ post := by
  rw [pyReplace, isEmpty_false_of_ne_nil hne]
  simp only [Bool.false_eq_true, if_false]
  apply replaceGo_single old new hne pre post
  intro i hi
  have hmem : i ∈ [pre.length] := mem_of_occ hne hocc hi
  simpa using hmem

theorem pyReplace_double (old new pre mid post : Str) (hne : old ≠ [])
    (hocc : occPositions old (pre ++ old ++ mid ++ old ++ post) =
      [pre.length, pre.length + old.length + mid.length]) :
    pyReplace old new (pre ++ old ++ mid ++ old ++ post) =
      pre ++ new ++ mid ++ new ++ post := by
  rw [pyReplace, isEmpty_false_of_ne_nil hne]
  simp only [Bool.false_eq_true, if_false]
  apply replaceGo_double old new hne pre mid post
  intro i hi
  have hmem : i ∈ [pre.length, pre.length + old.length + mid.length] :=
    mem_of_occ hne hocc hi
  simpa using hmem

theorem replaceStep_true_eq (content : Str) (img : PyImage) :
    replaceStep true content img =
      match img.original_img_elem_str with
      | none => .error .attributeError
      | some o =>
        match img.generated_alt_text with
        | none => .error .typeError
        | some ga =>
          .ok (pyReplace o (buildReplacementString o img.original_alt_text ga) content,
               { img with alt_text_replaced := true }) := by
  unfold replaceStep
  rw [if_pos (by simp)]

theorem replaceStep_true_ok_elim {content c' : Str} {img img' : PyImage}
    (h : replaceStep true content img = .ok (c', img')) :
    ∃ o ga, img.original_img_elem_str = some o ∧ img.generated_alt_text = some ga ∧
      c' = pyReplace o (buildReplacementString o img.original_alt_text ga) content ∧
      img' = { img with alt_text_replaced := true } := by
  rw [replaceStep_true_eq] at h
  cases ho : img.original_img_elem_str with
  | none => rw [ho] at h; cases h
  | some o =>
    rw [ho] at h
    cases hg : img.generated_alt_text with
    | none => rw [hg] at h; cases h
    | some ga =>
      rw [hg] at h
      simp only [Except.ok.injEq, Prod.mk.injEq] at h
      exact ⟨o, ga, rfl, rfl, h.1.symm, h.2.symm⟩

theorem replaceLoop_true_ok_elim :
    ∀ {imgs : List PyImage} {c c1 : Str} {imgs1 : List PyImage},
    replaceLoop true c imgs = .ok (c1, imgs1) →
    ∀ i1 ∈ imgs1, ∃ i ∈ imgs, i1 = { i with alt_text_replaced := true } ∧
      (∃ o, i.original_img_elem_str = some o) ∧ ∃ ga, i.generated_alt_text = some ga := by
  intro imgs
  induction imgs with
  | nil =>
    intro c c1 imgs1 h i1 hi1
    simp only [replaceLoop, Except.ok.injEq, Prod.mk.injEq] at h
    rw [← h.2] at hi1
    exact absurd hi1 (List.not_mem_nil i1)
  | cons img rest ih =>
    intro c c1 imgs1 h i1 hi1
    simp only [replaceLoop] at h
    cases hstep : replaceStep true c img with
    | error e => rw [hstep] at h; cases h
    | ok pr =>
      obtain ⟨c', img'⟩ := pr
      rw [hstep] at h
      dsimp only at h
      cases hloop : replaceLoop true c' rest with
      | error e => rw [hloop] at h; cases h
      | ok pr2 =>
        obtain ⟨c'', rest'⟩ := pr2
        rw [hloop] at h
        simp only [Except.ok.injEq, Prod.mk.injEq] at h
        rw [← h.2] at hi1
        obtain ⟨o, ga, ho, hg, _, himg'⟩ := replaceStep_true_ok_elim hstep
        rcases List.mem_cons.mp hi1 with hi1 | hi1
        · exact ⟨img, List.mem_cons_self img rest, by rw [hi1, himg'], ⟨o, ho⟩, ⟨ga, hg⟩⟩
        · obtain ⟨i, hi, hieq, hio, hig⟩ := ih hloop i1 hi1
          exact ⟨i, List.mem_cons_of_mem img hi, hieq, hio, hig⟩

theorem set_flag_id {img : PyImage} (h : img.alt_text_replaced = true) :
    { img with alt_text_replaced := true } = img := by
  cases img
  simp_all

theorem replaceLoop_true_id (c1 : Str) :
    ∀ (imgs1 : List PyImage),
    (∀ i ∈ imgs1, i.alt_text_replaced = true ∧ ∃ o ga,
      i.original_img_elem_str = some o ∧ i.generated_alt_text = some ga ∧
      occPositions o c1 = []) →
    replaceLoop true c1 imgs1 = .ok (c1, imgs1) := by
  intro imgs1
  induction imgs1 with
  | nil => intro _; rfl
  | cons i rest ih =>
    intro h
    obtain ⟨hflag, o, ga, ho, hg, hocc⟩ := h i (List.mem_cons_self i rest)
    have hstep : replaceStep true c1 i = .ok (c1, i) := by
      rw [replaceStep_true_eq, ho, hg]
      dsimp only
      rw [pyReplace_no_occ _ hocc, ← ho, ← hg, set_flag_id hflag]
    have hrest := ih (fun j hj => h j (List.mem_cons_of_mem _ hj))
    simp only [replaceLoop, hstep, hrest]

theorem foldl_dict_id (k : Str) : ∀ (pairs : List (Str × Str)) (acc : Option Str),
    (∀ p ∈ pairs, p.1 ≠ k) →
    pairs.foldl (fun acc p => if p.1 = k then some p.2 else acc) acc = acc := by
  intro pairs
  induction pairs with
  | nil => intro acc _; rfl
  | cons p rest ih =>
    intro acc h
    simp only [List.foldl_cons]
    rw [if_neg (h p (List.mem_cons_self p rest))]
    exact ih acc (fun q hq => h q (List.mem_cons_of_mem p hq))

theorem pyDictGet_none (pairs : List (Str × Str)) (k : Str)
    (h : ∀ p ∈ pairs, p.1 ≠ k) : pyDictGet pairs k = none :=
  foldl_dict_id k pairs none h

theorem map_id_of_eq {α : Type} : ∀ (l : List α) (f : α → α),
    (∀ x ∈ l, f x = x) → l.map f = l := by
  intro l f
  induction l with
  | nil => intro _; rfl
  | cons x t ih =>
    intro h
    simp only [List.map_cons]
    rw [h x (List.mem_cons_self x t), ih (fun y hy => h y (List.mem_cons_of_mem x hy))]

theorem readReviewGo_spec : ∀ lines : List Str,
    readReviewGo lines =
      (lines.filterMap processLine, lines.filter (fun l => (processLine l).isNone)) := by
  intro lines
  induction lines with
  | nil => rfl
  | cons l rest ih =>
    simp only [readReviewGo, ih]
    cases hp : processLine l with
    | none => simp [List.filterMap_cons, List.filter_cons, hp]
    | some p => simp [List.filterMap_cons, List.filter_cons, hp]

theorem processElem_ok_some_fragment {iL fE : Str → Bool} {tags : List (Str × List Str)}
    {cf pd : Str} {sk : Bool} {filt : Option (List Str)} {e : ImgElem} {img : PyImage}
    (h : processElem iL fE tags cf pd sk filt e = .ok (some img)) :
    img.original_img_elem_str = firstTag tags img.image_src := by
  unfold processElem at h
  cases hsrc : e.src with
  | none => rw [hsrc] at h; exact absurd h (by simp)
  | some src =>
    rw [hsrc] at h
    dsimp only at h
    repeat' split at h
    all_goals simp at h
    subst h
    rfl

theorem collectGo_ok_fragment {iL fE : Str → Bool} {tags : List (Str × List Str)}
    {cf pd : Str} {sk : Bool} {filt : Option (List Str)} :
    ∀ {elems : List ImgElem} {imgs : List PyImage},
    collectGo iL fE tags cf pd sk filt elems = .ok imgs →
    ∀ img ∈ imgs, img.original_img_elem_str = firstTag tags img.image_src := by
  intro elems
  induction elems with
  | nil =>
    intro imgs h img hmem
    simp only [collectGo, Except.ok.injEq] at h
    rw [← h] at hmem
    exact absurd hmem (List.not_mem_nil img)
  | cons e rest ih =>
    intro imgs h img hmem
    simp only [collectGo] at h
    cases hp : processElem iL fE tags cf pd sk filt e with
    | error err => rw [hp] at h; cases h
    | ok o =>
      rw [hp] at h
      cases o with
      | none =>
        dsimp only at h
        exact ih h img hmem
      | some i0 =>
        dsimp only at h
        cases hr : collectGo iL fE tags cf pd sk filt rest with
        | error e2 => rw [hr] at h; cases h
        | ok imgs' =>
          rw [hr] at h
          dsimp only at h
          simp only [Except.ok.injEq] at h
          rw [← h] at hmem
          rcases List.mem_cons.mp hmem with hmem | hmem
          · rw [hmem]; exact processElem_ok_some_fragment hp
          · exact ih hr img hmem

/-- C1, counterexample: the claim as stated is false.  The fragment `"ab"`
occurs exactly once in the chapter content `"ab"` and the generated text
`"aa"` differs from the original alt text `"a"`, yet the second engine call
on the first call's output `"aab"` returns `"aaab"`, not `"aab"`: the
replacement string `"aab"` itself contains the fragment, so the substitution
is not idempotent. -/
theorem c1_counterexample :
    occPositions "ab".data "ab".data = [0] ∧
      ("aa".data : Str) ≠ "a".data ∧
      replace_alt_text_in_chapter_content "ab".data
          [mkTestImage "a.png".data (some "ab".data) "a".data (some "aa".data)] true =
        .ok ("aab".data,
          [{ mkTestImage "a.png".data (some "ab".data) "a".data (some "aa".data) with
              alt_text_replaced := true }]) ∧
      replace_alt_text_in_chapter_content "aab".data
          [{ mkTestImage "a.png".data (some "ab".data) "a".data (some "aa".data) with
              alt_text_replaced := true }] true =
        .ok ("aaab".data,
          [{ mkTestImage "a.png".data (some "ab".data) "a".data (some "aa".data) with
              alt_text_replaced := true }]) ∧
      ("aaab".data : Str) ≠ "aab".data :=
  ⟨by decide, by decide, rfl, rfl, by decide⟩

/-- C1, amended: re-running `replace_alt_text_in_chapter_content` (with
`replace_existing_alt` true) on the first call's output returns that output
unchanged — and every image's `alt_text_replaced` is true after the first
call and remains true after the second — provided no image's
`original_img_elem_str` still occurs in the first call's output (which the
claim's "appears exactly once" hypothesis fails to guarantee, since the
replacement fragment may itself contain the original fragment). -/
theorem c1_replacement_idempotent_when_fragment_absent_from_output
    (content c1 : Str) (images imgs1 : List PyImage)
    (h1 : replace_alt_text_in_chapter_content content images true = .ok (c1, imgs1))
    (h2 : ∀ img ∈ images, occPositions (img.original_img_elem_str.getD []) c1 = []) :
    replace_alt_text_in_chapter_content c1 imgs1 true = .ok (c1, imgs1) ∧
      ∀ i ∈ imgs1, i.alt_text_replaced = true := by
  have h1' : replaceLoop true content images = .ok (c1, imgs1) := h1
  have hmem := replaceLoop_true_ok_elim h1'
  constructor
  · show replaceLoop true c1 imgs1 = .ok (c1, imgs1)
    apply replaceLoop_true_id
    intro i1 hi1
    obtain ⟨i, hi, hieq, ⟨o, ho⟩, ⟨ga, hg⟩⟩ := hmem i1 hi1
    subst hieq
    refine ⟨rfl, o, ga, ho, hg, ?_⟩
    have hocc := h2 i hi
    rw [ho] at hocc
    simpa using hocc
  · intro i1 hi1
    obtain ⟨i, hi, hieq, _, _⟩ := hmem i1 hi1
    subst hieq
    rfl

/-- C1, witness: a first call that removes every occurrence of the fragment
(content `"aQb"`, fragment `"Q"`, output `"aRb"`) — the second call returns
the output unchanged. -/
theorem c1_witness :
    replace_alt_text_in_chapter_content "aRb".data
        [{ mkTestImage "a.png".data (some "Q".data) "Q".data (some "R".data) with
            alt_text_replaced := true }] true =
      .ok ("aRb".data,
        [{ mkTestImage "a.png".data (some "Q".data) "Q".data (some "R".data) with
            alt_text_replaced := true }]) :=
  (c1_replacement_idempotent_when_fragment_absent_from_output "aQb".data "aRb".data
    [mkTestImage "a.png".data (some "Q".data) "Q".data (some "R".data)]
    [{ mkTestImage "a.png".data (some "Q".data) "Q".data (some "R".data) with
        alt_text_replaced := true }] rfl (by decide)).1

/-- C2, counterexample: the claim as stated is false.  With the fragment
`"ab"` occurring twice in `"abab"` (original alt `"a"`, generated `"c"`,
replacement fragment `"cb"`), Python `str.replace` yields `"cbcb"`: the
second identical occurrence is also substituted, whereas first-occurrence
semantics would leave it and produce `"cbab"`. -/
theorem c2_counterexample :
    replace_alt_text_in_chapter_content "abab".data
        [mkTestImage "a.png".data (some "ab".data) "a".data (some "c".data)] true =
      .ok ("cbcb".data,
        [{ mkTestImage "a.png".data (some "ab".data) "a".data (some "c".data) with
            alt_text_replaced := true }]) ∧
      ("cbcb".data : Str) ≠ "cbab".data :=
  ⟨rfl, by decide⟩

/-- C2, amended: the engine substitutes **every** occurrence of
`original_img_elem_str` (Python `str.replace` semantics), not only the
first: when the fragment occurs exactly twice in the content, both
occurrences are replaced by the replacement fragment. -/
theorem c2_replacement_substitutes_every_occurrence (img : PyImage)
    (o ga pre mid post : Str)
    (ho : img.original_img_elem_str = some o)
    (hg : img.generated_alt_text = some ga)
    (hne : o ≠ [])
    (hocc : occPositions o (pre ++ o ++ mid ++ o ++ post) =
      [pre.length, pre.length + o.length + mid.length]) :
    replace_alt_text_in_chapter_content (pre ++ o ++ mid ++ o ++ post) [img] true =
      .ok (pre ++ buildReplacementString o img.original_alt_text ga ++ mid ++
            buildReplacementString o img.original_alt_text ga ++ post,
          [{ img with alt_text_replaced := true }]) := by
  show replaceLoop true (pre ++ o ++ mid ++ o ++ post) [img] = _
  have hstep : replaceStep true (pre ++ o ++ mid ++ o ++ post) img =
      .ok (pre ++ buildReplacementString o img.original_alt_text ga ++ mid ++
            buildReplacementString o img.original_alt_text ga ++ post,
          { img with alt_text_replaced := true }) := by
    rw [replaceStep_true_eq, ho, hg]
    dsimp only
    rw [pyReplace_double o _ pre mid post hne hocc]
  simp only [replaceLoop, hstep]

/-- C2, witness: content `"abxab"` holds the fragment `"ab"` twice; both are
replaced, giving `"cbxcb"`. -/
theorem c2_witness :
    replace_alt_text_in_chapter_content
        (([] : Str) ++ "ab".data ++ "x".data ++ "ab".data ++ []) 
        [mkTestImage "a.png".data (some "ab".data) "a".data (some "c".data)] true =
      .ok (([] : Str) ++
            buildReplacementString "ab".data
              (mkTestImage "a.png".data (some "ab".data) "a".data (some "c".data)).original_alt_text
              "c".data ++ "x".data ++
            buildReplacementString "ab".data
              (mkTestImage "a.png".data (some "ab".data) "a".data (some "c".data)).original_alt_text
              "c".data ++ [],
          [{ mkTestImage "a.png".data (some "ab".data) "a".data (some "c".data) with
              alt_text_replaced := true }]) :=
  c2_replacement_substitutes_every_occurrence
    (mkTestImage "a.png".data (some "ab".data) "a".data (some "c".data))
    "ab".data "c".data [] "x".data [] rfl rfl (by decide) (by decide)

/-- C3, counterexample: the claim as stated is false.  A chapter holds two
surviving image elements with the same reference `a.png` and two byte-
distinct literal occurrences `tagT1`, `tagT2`; the claim requires the second
element to receive `tagT2` and no occurrence to be assigned twice, but line
208 indexes the occurrence list with `[0]` unconditionally, so **both**
Images receive `tagT1` and `tagT2` is never assigned. -/
theorem c3_counterexample :
    collect_image_data_from_chapter_file [elemA, elemA] c3Matches
        (fun _ => true) (fun _ => true) "ch1.html".data "proj".data false none =
      .ok [c3OutImg, c3OutImg] ∧
      c3OutImg.original_img_elem_str = some tagT1 ∧ tagT1 ≠ tagT2 :=
  ⟨rfl, rfl, by decide⟩

/-- C3, amended: literal occurrences are not consumed; **every** surviving
image element with a given reference receives the **first** literal
occurrence recorded for that reference (duplicates share one fragment). -/
theorem c3_locator_assigns_first_literal_occurrence_to_all_duplicates
    (elems : List ImgElem) (ms : List (Str × Str)) (iL fE : Str → Bool)
    (cf pd : Str) (sk : Bool) (filt : Option (List Str)) (imgs : List PyImage)
    (h : collect_image_data_from_chapter_file elems ms iL fE cf pd sk filt = .ok imgs) :
    ∀ img ∈ imgs, img.original_img_elem_str = firstTag (buildTagsBySrc ms) img.image_src := by
  unfold collect_image_data_from_chapter_file at h
  exact collectGo_ok_fragment h

/-- C3, witness: in the duplicate-reference chapter, the produced Image
carries the first recorded literal occurrence of its reference. -/
theorem c3_witness :
    c3OutImg.original_img_elem_str = firstTag (buildTagsBySrc c3Matches) c3OutImg.image_src :=
  c3_locator_assigns_first_literal_occurrence_to_all_duplicates [elemA, elemA] c3Matches
    (fun _ => true) (fun _ => true) "ch1.html".data "proj".data false none
    [c3OutImg, c3OutImg] rfl c3OutImg (List.mem_cons_self _ _)

/-- C4, counterexample: the claim as stated is false.  In the fragment
`<img src="x" alt="x">` with original alt text `"x"` and generated text
`"y"`, Python `str.replace` substitutes **every** occurrence of `"x"`, so
the `src` attribute byte outside the alt-text occurrence also changes:
the result is `<img src="y" alt="y">`, not either single-substitution
candidate. -/
theorem c4_counterexample :
    buildReplacementString "<img src=\"x\" alt=\"x\">".data "x".data "y".data =
        "<img src=\"y\" alt=\"y\">".data ∧
      ("<img src=\"y\" alt=\"y\">".data : Str) ≠ "<img src=\"x\" alt=\"y\">".data ∧
      ("<img src=\"y\" alt=\"y\">".data : Str) ≠ "<img src=\"y\" alt=\"x\">".data :=
  ⟨rfl, by decide, by decide⟩

/-- C4, amended: the replacement fragment substitutes **every** occurrence of
`original_alt_text` inside `original_img_elem_str`; when the (nonempty)
original alt text occurs exactly once in the fragment, that occurrence is
replaced by the generated text and every byte outside it is preserved
unchanged. -/
theorem c4_fragment_single_occurrence_preserves_other_bytes
    (oa ga pre post : Str) (hne : oa ≠ [])
    (hocc : occPositions oa (pre ++ oa ++ post) = [pre.length]) :
    buildReplacementString (pre ++ oa ++ post) oa ga = pre ++ ga ++ post := by
  show pyReplace oa ga (pre ++ oa ++ post) = pre ++ ga ++ post
  exact pyReplace_single oa ga pre post hne hocc

/-- C4, witness: in `<img alt="old">` the alt text `old` occurs once; the
fragment becomes `<img alt="new">` with all other bytes intact. -/
theorem c4_witness :
    buildReplacementString ("<img alt=\"".data ++ "old".data ++ "\">".data)
        "old".data "new".data =
      "<img alt=\"".data ++ "new".data ++ "\">".data :=
  c4_fragment_single_occurrence_preserves_other_bytes "old".data "new".data
    "<img alt=\"".data "\">".data (by decide) (by decide)

/-- C5, counterexample: the claim as stated is false.  The fragment `"xyz"`
does not occur in the content `"hello"`, no substitution is performed (the
content is returned unchanged), yet line 340 sets `alt_text_replaced` to
true unconditionally whenever replacement is attempted. -/
theorem c5_counterexample :
    replace_alt_text_in_chapter_content "hello".data
        [mkTestImage "a.png".data (some "xyz".data) "a".data (some "b".data)] true =
      .ok ("hello".data,
        [{ mkTestImage "a.png".data (some "xyz".data) "a".data (some "b".data) with
            alt_text_replaced := true }]) ∧
      occPositions "xyz".data "hello".data = [] :=
  ⟨rfl, by decide⟩

/-- C5, amended: after a non-raising processing of an image,
`alt_text_replaced` is true exactly when replacement was attempted
(`replace_existing_alt` or empty original alt text) or the flag was already
true — independently of whether the fragment was found in the content. -/
theorem c5_flag_set_iff_attempted (re : Bool) (content : Str) (img : PyImage)
    (c' : Str) (img' : PyImage)
    (h : replaceStep re content img = .ok (c', img')) :
    img'.alt_text_replaced =
      ((re || img.original_alt_text.isEmpty) || img.alt_text_replaced) := by
  by_cases hc : (re || img.original_alt_text.isEmpty) = true
  · unfold replaceStep at h
    rw [if_pos hc] at h
    cases ho : img.original_img_elem_str with
    | none => rw [ho] at h; cases h
    | some o =>
      rw [ho] at h
      cases hg : img.generated_alt_text with
      | none => rw [hg] at h; cases h
      | some ga =>
        rw [hg] at h
        dsimp only at h
        simp only [Except.ok.injEq, Prod.mk.injEq] at h
        rw [← h.2, hc, Bool.true_or]
  · have hcf : (re || img.original_alt_text.isEmpty) = false := by
      cases hb : (re || img.original_alt_text.isEmpty) with
      | true => exact absurd hb hc
      | false => rfl
    unfold replaceStep at h
    rw [if_neg (by simp [hcf])] at h
    simp only [Except.ok.injEq, Prod.mk.injEq] at h
    rw [← h.2, hcf, Bool.false_or]

/-- C5, witness: an attempted replacement whose target `"xyz"` is absent
from the content still ends with the flag true. -/
theorem c5_witness :
    ({ mkTestImage "a.png".data (some "xyz".data) "a".data (some "b".data) with
        alt_text_replaced := true }).alt_text_replaced =
      ((true ||
          (mkTestImage "a.png".data (some "xyz".data) "a".data
            (some "b".data)).original_alt_text.isEmpty) ||
        (mkTestImage "a.png".data (some "xyz".data) "a".data
          (some "b".data)).alt_text_replaced) :=
  c5_flag_set_iff_attempted true "hello".data
    (mkTestImage "a.png".data (some "xyz".data) "a".data (some "b".data)) "hello".data
    ({ mkTestImage "a.png".data (some "xyz".data) "a".data (some "b".data) with
        alt_text_replaced := true }) rfl

/-- C6, code bug: the engine never checks `generated_alt_text`.  With the
default `replace_existing_alt`, an image whose generated text is `None`
makes line 338 raise `TypeError` (`str.replace` argument 2 is `None`), and
an image whose generated text is the empty string has its original alt text
stripped from the chapter and `alt_text_replaced` set — in both cases the
image is neither left untouched nor unmarked, and in the first the engine
fails. -/
theorem c6_missing_generated_text_crashes_or_strips :
    replace_alt_text_in_chapter_content "<p><img src=\"a.png\" alt=\"old\"></p>".data
        [mkTestImage "a.png".data (some "<img src=\"a.png\" alt=\"old\">".data)
          "old".data none] true =
      .error .typeError ∧
    replace_alt_text_in_chapter_content "<p><img src=\"a.png\" alt=\"old\"></p>".data
        [mkTestImage "a.png".data (some "<img src=\"a.png\" alt=\"old\">".data)
          "old".data (some [])] true =
      .ok ("<p><img src=\"a.png\" alt=\"\"></p>".data,
        [{ mkTestImage "a.png".data (some "<img src=\"a.png\" alt=\"old\">".data)
            "old".data (some []) with alt_text_replaced := true }]) :=
  ⟨rfl, rfl⟩

/-- C7, code bug: for an element whose reference does not resolve,
`resolve_image_path` returns `None` and line 186 (`if not
img_filepath.exists:`) performs attribute access on `None`, raising
`AttributeError` — the locator does not skip the element and does not
return normally. -/
theorem c7_unresolved_reference_raises_attribute_error :
    collect_image_data_from_chapter_file
        [{ elemA with src := some "missing.png".data }] []
        (fun _ => true) (fun _ => false) "ch1.html".data "proj".data false none =
      .error .attributeError :=
  rfl

/-- C8: the merge rewrites each chapter's images elementwise; an image whose
reference matches no correction key is returned unchanged; a matching key
with nonempty corrected text sets `generated_alt_text` to that key's text
(`pyDictGet`, last pair wins); every other field is always preserved; and
whenever the generated text changed, it changed to a matched key's nonempty
text.  Unmatched correction keys affect nothing, and the merge is a total
function — no error.  (A matching key whose corrected text is empty is
ignored; that behaviour is the subject of C10.) -/
theorem c8_merge_updates_only_matching (pairs : List (Str × Str)) (chs : List PyChapter) :
    merge_review_data_with_repo_data pairs chs =
      chs.map (fun ch => { ch with images := ch.images.map (mergeImage pairs) }) ∧
    ∀ img : PyImage,
      ((mergeImage pairs img).image_src = img.image_src ∧
        (mergeImage pairs img).original_img_elem_str = img.original_img_elem_str ∧
        (mergeImage pairs img).original_alt_text = img.original_alt_text ∧
        (mergeImage pairs img).alt_text_replaced = img.alt_text_replaced) ∧
      ((∀ p ∈ pairs, p.1 ≠ img.image_src) → mergeImage pairs img = img) ∧
      (∀ v, pyDictGet pairs img.image_src = some v → v ≠ [] →
        (mergeImage pairs img).generated_alt_text = some v) ∧
      ((mergeImage pairs img).generated_alt_text ≠ img.generated_alt_text →
        ∃ v, pyDictGet pairs img.image_src = some v ∧ v ≠ [] ∧
          (mergeImage pairs img).generated_alt_text = some v) := by
  refine ⟨rfl, fun img => ?_⟩
  cases hd : pyDictGet pairs img.image_src with
  | none =>
    have hmi : mergeImage pairs img = img := by
      unfold mergeImage
      rw [hd]
    refine ⟨⟨by rw [hmi], by rw [hmi], by rw [hmi], by rw [hmi]⟩, fun _ => hmi, ?_, ?_⟩
    · intro v hv
      cases hv
    · intro hch
      rw [hmi] at hch
      exact absurd rfl hch
  | some v =>
    by_cases hv : v = []
    · subst hv
      have hmi : mergeImage pairs img = img := by
        unfold mergeImage
        rw [hd]
        rfl
      refine ⟨⟨by rw [hmi], by rw [hmi], by rw [hmi], by rw [hmi]⟩, fun _ => hmi, ?_, ?_⟩
      · intro v' hv' hne'
        injection hv' with hv''
        exact absurd hv''.symm hne'
      · intro hch
        rw [hmi] at hch
        exact absurd rfl hch
    · have hmi : mergeImage pairs img = { img with generated_alt_text := some v } := by
        unfold mergeImage
        rw [hd]
        dsimp only
        rw [if_neg (by simp [isEmpty_false_of_ne_nil hv])]
      refine ⟨⟨by rw [hmi], by rw [hmi], by rw [hmi], by rw [hmi]⟩, ?_, ?_, ?_⟩
      · intro hnone
        rw [pyDictGet_none pairs img.image_src hnone] at hd
        cases hd
      · intro v' hv' _
        injection hv' with hv''
        rw [hmi, hv'']
      · intro _
        exact ⟨v, rfl, hv, by rw [hmi]⟩

/-- C8, witness: the spec's merge-precedence example — merging
`[("a.png", "New")]` leaves the `b.png` image (generated text `"Keep"`)
untouched. -/
theorem c8_witness :
    mergeImage [("images/a.png".data, "New".data)]
        (mkTestImage "images/b.png".data none "Keep".data (some "Keep".data)) =
      mkTestImage "images/b.png".data none "Keep".data (some "Keep".data) :=
  ((c8_merge_updates_only_matching [("images/a.png".data, "New".data)] []).2
    (mkTestImage "images/b.png".data none "Keep".data (some "Keep".data))).2.1 (by decide)

/-- C9: the review-CSV reader aggregates errors.  If every line parses, the
result is the list of `(stripped path, html-escaped stripped alt text)`
pairs in file order; if any line is malformed (per-line processing
`processLine` yields no pair: a quoted field with an unescaped internal
quote, an empty line, or a row without exactly two fields), the reader
fails with a single error carrying **all** offending lines, not just the
first. -/
theorem c9_csv_errors_aggregated (lines : List Str) :
    ((∀ l ∈ lines, (processLine l).isSome = true) →
      read_review_data_from_csv_file lines = .ok (lines.filterMap processLine)) ∧
    (lines.filter (fun l => (processLine l).isNone) ≠ [] →
      read_review_data_from_csv_file lines =
        .error (lines.filter (fun l => (processLine l).isNone))) := by
  constructor
  · intro h
    have hfil : lines.filter (fun l => (processLine l).isNone) = [] := by
      rw [List.filter_eq_nil_iff]
      intro a ha
      have hs := h a ha
      cases hp : processLine a with
      | none => rw [hp] at hs; cases hs
      | some p => simp [hp]
    unfold read_review_data_from_csv_file
    rw [readReviewGo_spec]
    simp [hfil]
  · intro h
    have hne : (lines.filter (fun l => (processLine l).isNone)).isEmpty = false := by
      cases hF : lines.filter (fun l => (processLine l).isNone) with
      | nil => exact absurd hF h
      | cons a t => rfl
    unfold read_review_data_from_csv_file
    rw [readReviewGo_spec]
    simp [hne]

/-- C9, witness: a three-field line and a well-formed line — the reader
fails with exactly the offending line. -/
theorem c9_witness :
    read_review_data_from_csv_file ["a,b,c".data, "x.png,good".data] =
      .error ["a,b,c".data] :=
  (c9_csv_errors_aggregated ["a,b,c".data, "x.png,good".data]).2 (by decide)

/-- C10: an empty corrected text can never clear or overwrite generated
text.  If the correction set's effective value for an image's reference
(`pyDictGet`, last pair for the key wins) is the empty string, the image is
returned entirely unchanged; a chapter graph all of whose images resolve to
empty corrections is returned unchanged by the merge. -/
theorem c10_empty_correction_never_overwrites (pairs : List (Str × Str)) :
    (∀ img : PyImage, pyDictGet pairs img.image_src = some [] →
      mergeImage pairs img = img) ∧
    (∀ chs : List PyChapter,
      (∀ ch ∈ chs, ∀ img ∈ ch.images, pyDictGet pairs img.image_src = some []) →
      merge_review_data_with_repo_data pairs chs = chs) := by
  have himg : ∀ img : PyImage, pyDictGet pairs img.image_src = some [] →
      mergeImage pairs img = img := by
    intro img h
    unfold mergeImage
    rw [h]
    rfl
  refine ⟨himg, fun chs h => ?_⟩
  unfold merge_review_data_with_repo_data
  apply map_id_of_eq
  intro ch hch
  have hims : ch.images.map (mergeImage pairs) = ch.images :=
    map_id_of_eq _ _ (fun img himgmem => himg img (h ch hch img himgmem))
  rw [hims]

/-- C10, witness: a correction pair `("images/a.png", "")` whose key exactly
matches the image's reference leaves the generated text `"Old"` in place. -/
theorem c10_witness :
    mergeImage [("images/a.png".data, ([] : Str))]
        (mkTestImage "images/a.png".data none [] (some "Old".data)) =
      mkTestImage "images/a.png".data none [] (some "Old".data) :=
  (c10_empty_correction_never_overwrites [("images/a.png".data, ([] : Str))]).1
    (mkTestImage "images/a.png".data none [] (some "Old".data)) (by decide)
